import Mathlib

/-!
Verification of the little-reaper / tinyreaper process supervisor.

The repository contains two variants of the supervisor:
* `tinyreaper` (the file with `signal_handler`, `start_shutdown`,
  `handle_alarm`, `send_signal_to_all_children` and an unconditional
  terminate-and-wait reap loop), modelled below with the `tr_` / `TR` names;
* `little-reaper.c` (policy flags `-w`, `-W`, `-r` and
  `return_code_from_process_status`), modelled with the `lr_` / `LR` names.

Machine integers are modelled as `Nat`/`Int`; the wait-status decoders follow
glibc `bits/waitstatus.h`.  Each reap loop is embedded as a step function over
an explicit event trace (wait-call results, and for tinyreaper also
asynchronous signal deliveries, delivered at loop-iteration boundaries since
handler and loop communicate only through the shutdown flags).
-/

/-- glibc: `WIFEXITED(s)` is `(s & 0x7f) == 0`. -/
def WIFEXITED (s : Nat) : Bool := s % 128 == 0

/-- glibc: `WEXITSTATUS(s)` is `(s & 0xff00) >> 8`. -/
def WEXITSTATUS (s : Nat) : Nat := (s / 256) % 256

/-- glibc: `WIFSIGNALED(s)` holds when `s & 0x7f` is neither 0 (normal exit)
nor 0x7f (stopped). -/
def WIFSIGNALED (s : Nat) : Bool := s % 128 != 0 && s % 128 != 127

/-- glibc: `WTERMSIG(s)` is `s & 0x7f`. -/
def WTERMSIG (s : Nat) : Nat := s % 128

/-- The process exit status actually observable by a parent: the low 8 bits of
the value passed to `exit` (so `exit(-1)` is observed as 255). -/
def processExitStatus (c : Int) : Nat := (c % 256).toNat

def SIGINT : Nat := 2
def SIGQUIT : Nat := 3
def SIGALRM : Nat := 14
def SIGTERM : Nat := 15

/-- tinyreaper: `static const int shutdown_timeout_seconds = 5;` -/
def shutdown_timeout_seconds : Nat := 5

/-- Result of one `wait(&status)` call, as classified by the reap loops:
a reaped child (`pid > 0`), the `ECHILD` error (no descendants remain), or
any other failing errno. -/
inductive WaitResult where
  | reaped (pid : Nat) (status : Nat)
  | echild
  | otherError (errno : Nat)
deriving DecidableEq, Repr

/-! ## tinyreaper (the variant with the shutdown coordinator) -/

/-- Log lines emitted by tinyreaper (identified by event, not text). -/
inductive TRLog where
  | shutdownAlready
  | terminatingChildren
  | tickTock
  | ignoringSelfTerm
  | signalNum (sig : Nat)
  | shutdownTimeout
  | childExited (pid : Nat) (code : Nat)
  | childSignaled (pid : Nat) (sig : Nat)
  | commandFinished
  | allChildrenTerminated
deriving DecidableEq, Repr

/-- tinyreaper's process-global state relevant to the shutdown coordinator:
the `shutdown_in_progress` flag, the pending alarm and how often `alarm()` was
called, the signals broadcast to the process group so far, plus the process
identity (`getpid()`, `getpgrp()`) and the log. -/
structure TRState where
  verbose : Bool
  selfPid : Nat
  pgrp : Nat
  shutdown_in_progress : Bool
  alarmSeconds : Option Nat
  alarmCalls : Nat
  broadcasts : List Nat
  log : List TRLog
deriving DecidableEq, Repr

/-- tinyreaper `send_signal_to_all_children`: `kill(0, sig)` guarded by the
re-check `getpgrp() == getpid()`. -/
def send_signal_to_all_children (sig : Nat) (st : TRState) : TRState :=
  if st.pgrp = st.selfPid then { st with broadcasts := st.broadcasts ++ [sig] }
  else st

/-- tinyreaper `start_shutdown`: no-op (plus a verbose log line) when shutdown
is already in progress; otherwise set the flag, log, broadcast `SIGTERM`, and
arm `alarm(shutdown_timeout_seconds)`. -/
def start_shutdown (st : TRState) : TRState :=
  if st.shutdown_in_progress then
    if st.verbose then { st with log := st.log ++ [.shutdownAlready] } else st
  else
    let st1 : TRState := { st with shutdown_in_progress := true,
                                   log := st.log ++ [.terminatingChildren] }
    let st2 := send_signal_to_all_children SIGTERM st1
    let st3 : TRState :=
      if st2.verbose then { st2 with log := st2.log ++ [.tickTock] } else st2
    { st3 with alarmSeconds := some shutdown_timeout_seconds,
               alarmCalls := st3.alarmCalls + 1 }

/-- tinyreaper `handle_alarm`: with shutdown in progress, log and `exit(-1)`;
otherwise nothing.  The optional `Int` is the exit, if any. -/
def handle_alarm (st : TRState) : TRState × Option Int :=
  if st.shutdown_in_progress then
    ({ st with log := st.log ++ [.shutdownTimeout] }, some (-1))
  else (st, none)

/-- tinyreaper `signal_handler`: drop a `SIGTERM` whose sender is this very
process; otherwise log the signal number (verbose) and dispatch —
termination-class signals to `start_shutdown`, `SIGALRM` to `handle_alarm`. -/
def signal_handler (sig : Nat) (senderPid : Nat) (st : TRState) :
    TRState × Option Int :=
  if sig = SIGTERM ∧ senderPid = st.selfPid then
    (if st.verbose then { st with log := st.log ++ [.ignoringSelfTerm] } else st,
     none)
  else
    let st1 : TRState :=
      if st.verbose then { st with log := st.log ++ [.signalNum sig] } else st
    if sig = SIGTERM ∨ sig = SIGINT ∨ sig = SIGQUIT then
      (start_shutdown st1, none)
    else if sig = SIGALRM then
      handle_alarm st1
    else (st1, none)

/-- tinyreaper `LOG_process_state`: unconditionally log a reaped child's
normal exit or terminating signal. -/
def LOG_process_state (pid : Nat) (status : Nat) (st : TRState) : TRState :=
  if WIFEXITED status then
    { st with log := st.log ++ [.childExited pid (WEXITSTATUS status)] }
  else if WIFSIGNALED status then
    { st with log := st.log ++ [.childSignaled pid (WTERMSIG status)] }
  else st

/-- tinyreaper `main`, lines 273–278: the final return code is `-1` when the
command exited non-zero or was killed by a signal, else `0`. -/
def tinyreaper_rc (command_status : Nat) : Int :=
  if (WIFEXITED command_status && WEXITSTATUS command_status != 0)
      || WIFSIGNALED command_status then -1 else 0

/-- State of tinyreaper's reap loop: the command pid (immutable after fork),
the recorded `command_status` (initially 0), and the shared global state. -/
structure TRLoop where
  command_pid : Nat
  command_status : Nat
  sh : TRState
deriving DecidableEq, Repr

/-- One event observed by a run of tinyreaper: a `wait` result, or an
asynchronous signal delivery (signal number and sender pid). -/
inductive TREvent where
  | wait (w : WaitResult)
  | signal (sig : Nat) (senderPid : Nat)
deriving DecidableEq, Repr

/-- One iteration of tinyreaper's reap loop (or one handler run between
iterations): `.inl` continues with the new state, `.inr c` is `exit(c)`. -/
def tr_step (st : TRLoop) (ev : TREvent) : TRLoop ⊕ Int :=
  match ev with
  | .signal sig sender =>
      match signal_handler sig sender st.sh with
      | (_, some c) => .inr c
      | (sh1, none) => .inl { st with sh := sh1 }
  | .wait (.reaped pid s) =>
      let sh1 := LOG_process_state pid s st.sh
      if pid = st.command_pid then
        let sh2 : TRState :=
          if sh1.verbose then { sh1 with log := sh1.log ++ [.commandFinished] }
          else sh1
        .inl { st with command_status := s, sh := start_shutdown sh2 }
      else
        .inl { st with sh := sh1 }
  | .wait .echild =>
      .inr (tinyreaper_rc st.command_status)
  | .wait (.otherError _) => .inl st

/-- Run tinyreaper's reap loop over a trace of events. -/
def tr_run (st : TRLoop) : List TREvent → TRLoop ⊕ Int
  | [] => .inl st
  | ev :: rest =>
      match tr_step st ev with
      | .inl st1 => tr_run st1 rest
      | .inr c => .inr c

/-- tinyreaper's state on entering the reap loop: `command_status = 0`,
shutdown not in progress, no alarm armed, nothing broadcast. -/
def tr_init (cmdPid selfPid pgrp : Nat) (verbose : Bool) : TRLoop :=
  { command_pid := cmdPid, command_status := 0,
    sh := { verbose := verbose, selfPid := selfPid, pgrp := pgrp,
            shutdown_in_progress := false, alarmSeconds := none,
            alarmCalls := 0, broadcasts := [], log := [] } }

/-- Whether a trace event reaps the given pid. -/
def reapsPid (pid : Nat) : TREvent → Bool
  | .wait (.reaped p _) => p == pid
  | _ => false

/-- Whether a trace event is a wait-call result (not a signal delivery). -/
def isWaitEvent : TREvent → Bool
  | .wait _ => true
  | .signal _ _ => false

/-! ## little-reaper.c (the variant with policy flags) -/

/-- The policy flags of `little-reaper.c` after argument parsing. -/
structure LRFlags where
  verbose : Bool
  wait_for_all_sub_processes : Bool
  wait_forever : Bool
  dont_reap : Bool
deriving DecidableEq, Repr

/-- Log lines emitted inside little-reaper's loop (all verbose-gated). -/
inductive LRLog where
  | childExited (pid : Nat) (code : Nat)
  | childSignaled (pid : Nat) (sig : Nat)
  | commandFinished
  | allChildrenFinished
  | waitError (errno : Nat)
deriving DecidableEq, Repr

/-- `return_code_from_process_status` from `little-reaper.c`. -/
def return_code_from_process_status (status : Nat) : Int :=
  if WIFSIGNALED status then -1
  else if WIFEXITED status then (WEXITSTATUS status : Int)
  else -1

/-- State of little-reaper's loop: the command pid and the
`command_status` / `command_terminated` / `no_child_left` locals. -/
structure LRLoop where
  command : Nat
  command_status : Nat
  command_terminated : Bool
  no_child_left : Bool
  log : List LRLog
deriving DecidableEq, Repr

/-- Outcome of one loop iteration (or of a whole run): continue, `exit(c)`,
the `-W` infinite sleep, or a failed `assert(command_terminated)`. -/
inductive LROutcome where
  | next (st : LRLoop)
  | exit (code : Int)
  | sleepForever (st : LRLoop)
  | assertFailed (st : LRLoop)
deriving DecidableEq, Repr

/-- The event-classification half of little-reaper's loop body (everything
before the policy checks). -/
def lr_observe (f : LRFlags) (st : LRLoop) (ev : WaitResult) : LRLoop :=
  match ev with
  | .reaped pid s =>
      if WIFEXITED s || WIFSIGNALED s then
        let st1 : LRLoop :=
          if f.verbose && WIFEXITED s then
            { st with log := st.log ++ [.childExited pid (WEXITSTATUS s)] }
          else st
        let st2 : LRLoop :=
          if f.verbose && WIFSIGNALED s then
            { st1 with log := st1.log ++ [.childSignaled pid (WTERMSIG s)] }
          else st1
        if pid = st.command then
          let st3 : LRLoop :=
            if f.verbose then { st2 with log := st2.log ++ [.commandFinished] }
            else st2
          { st3 with command_status := s, command_terminated := true }
        else st2
      else st
  | .echild =>
      let st1 : LRLoop := { st with no_child_left := true }
      if f.verbose then { st1 with log := st1.log ++ [.allChildrenFinished] }
      else st1
  | .otherError e =>
      if f.verbose then { st with log := st.log ++ [.waitError e] } else st

/-- The policy half of little-reaper's loop body (`wait_forever`, then
`wait_for_all_sub_processes`, then the default exit-on-command-exit). -/
def lr_policy (f : LRFlags) (st : LRLoop) : LROutcome :=
  if f.wait_forever then
    if st.no_child_left then .sleepForever st else .next st
  else if f.wait_for_all_sub_processes then
    if st.no_child_left then
      if st.command_terminated then
        .exit (return_code_from_process_status st.command_status)
      else .assertFailed st
    else .next st
  else
    if st.command_terminated then
      .exit (return_code_from_process_status st.command_status)
    else .next st

/-- One full iteration of little-reaper's loop on one wait result. -/
def lr_step (f : LRFlags) (st : LRLoop) (ev : WaitResult) : LROutcome :=
  lr_policy f (lr_observe f st ev)

/-- Run little-reaper's loop over a trace of wait results.  `.next st` at the
end means the trace was exhausted with the loop still running. -/
def lr_run (f : LRFlags) (st : LRLoop) : List WaitResult → LROutcome
  | [] => .next st
  | ev :: rest =>
      match lr_step f st ev with
      | .next st1 => lr_run f st1 rest
      | o => o

/-- little-reaper's loop state on entry: status 0, nothing observed. -/
def lr_init (cmd : Nat) : LRLoop :=
  { command := cmd, command_status := 0, command_terminated := false,
    no_child_left := false, log := [] }

/-- little-reaper's parent path after `fork`: the `dont_reap` pre-check, then
the reap loop. -/
def lr_parent (f : LRFlags) (cmd : Nat) (evs : List WaitResult) : LROutcome :=
  if f.dont_reap then
    if f.wait_forever then .sleepForever (lr_init cmd) else .exit 0
  else lr_run f (lr_init cmd) evs

/-! ## Concrete states used by witnesses and counterexamples -/

/-- An idle coordinator state whose process is its group leader. -/
def trLeaderState : TRState :=
  { verbose := false, selfPid := 7, pgrp := 7, shutdown_in_progress := false,
    alarmSeconds := none, alarmCalls := 0, broadcasts := [], log := [] }

/-- Same, but the process is no longer its group leader. -/
def trNonLeaderState : TRState := { trLeaderState with pgrp := 8 }

/-- A coordinator state with shutdown already in progress. -/
def trShutdownState : TRState := { trLeaderState with shutdown_in_progress := true }

/-- A fresh tinyreaper loop state (command pid 5, own pid 1, leader, quiet). -/
def trLoop0 : TRLoop := tr_init 5 1 1 false

/-- A fresh tinyreaper loop state with verbose logging on. -/
def trLoopV : TRLoop := tr_init 5 1 1 true

/-- little-reaper flags with every policy off. -/
def lrFlags0 : LRFlags :=
  { verbose := false, wait_for_all_sub_processes := false,
    wait_forever := false, dont_reap := false }

/-- little-reaper flags with only verbose on. -/
def lrFlagsV : LRFlags := { lrFlags0 with verbose := true }

/-- A fresh little-reaper loop state (command pid 5). -/
def lrLoop0 : LRLoop := lr_init 5

/-- Invariant of the shutdown coordinator: before the flag is set nothing was
broadcast and the alarm was never armed, and in any case the group broadcast
happened at most once and the alarm was armed at most once. -/
def shutdownCoordInv (sh : TRState) : Prop :=
  (sh.shutdown_in_progress = false → sh.broadcasts = [] ∧ sh.alarmCalls = 0) ∧
  sh.broadcasts.length ≤ 1 ∧ sh.alarmCalls ≤ 1

/-! ## Lemmas about the shutdown coordinator -/

theorem start_shutdown_of_in_progress (st : TRState)
    (h : st.shutdown_in_progress = true) :
    start_shutdown st =
      if st.verbose then { st with log := st.log ++ [.shutdownAlready] } else st := by
  simp [start_shutdown, h]

theorem start_shutdown_core_eq_of_in_progress (st : TRState)
    (h : st.shutdown_in_progress = true) :
    (start_shutdown st).shutdown_in_progress = st.shutdown_in_progress ∧
    (start_shutdown st).broadcasts = st.broadcasts ∧
    (start_shutdown st).alarmSeconds = st.alarmSeconds ∧
    (start_shutdown st).alarmCalls = st.alarmCalls ∧
    (start_shutdown st).verbose = st.verbose ∧
    (start_shutdown st).selfPid = st.selfPid ∧
    (start_shutdown st).pgrp = st.pgrp := by
  rw [start_shutdown_of_in_progress st h]
  split <;> simp

theorem start_shutdown_fresh (st : TRState)
    (h : st.shutdown_in_progress = false) :
    (start_shutdown st).shutdown_in_progress = true ∧
    (start_shutdown st).broadcasts =
      (if st.pgrp = st.selfPid then st.broadcasts ++ [SIGTERM] else st.broadcasts) ∧
    (start_shutdown st).alarmSeconds = some shutdown_timeout_seconds ∧
    (start_shutdown st).alarmCalls = st.alarmCalls + 1 ∧
    (start_shutdown st).verbose = st.verbose ∧
    (start_shutdown st).selfPid = st.selfPid ∧
    (start_shutdown st).pgrp = st.pgrp := by
  by_cases hp : st.pgrp = st.selfPid <;> by_cases hv : st.verbose = true <;>
    simp [start_shutdown, send_signal_to_all_children, h, hp, hv]

theorem handle_alarm_of_in_progress (st : TRState)
    (h : st.shutdown_in_progress = true) :
    handle_alarm st = ({ st with log := st.log ++ [.shutdownTimeout] }, some (-1)) := by
  simp [handle_alarm, h]

theorem handle_alarm_of_idle (st : TRState)
    (h : st.shutdown_in_progress = false) :
    handle_alarm st = (st, none) := by
  simp [handle_alarm, h]

theorem signal_handler_exit_cases (sig sender : Nat) (st st1 : TRState)
    (c : Int) (h : signal_handler sig sender st = (st1, some c)) :
    sig = SIGALRM ∧ st.shutdown_in_progress = true ∧ c = -1 := by
  by_cases hself : sig = SIGTERM ∧ sender = st.selfPid
  · simp [signal_handler, hself] at h
  · by_cases htrig : sig = SIGTERM ∨ sig = SIGINT ∨ sig = SIGQUIT
    · simp [signal_handler, hself, htrig] at h
    · by_cases halrm : sig = SIGALRM
      · by_cases hprog : st.shutdown_in_progress = true
        · refine ⟨halrm, hprog, ?_⟩
          have h2 := congrArg Prod.snd h
          by_cases hv : st.verbose = true <;>
            simp [signal_handler, hself, htrig, halrm, handle_alarm, hprog, hv,
                  SIGALRM, SIGTERM, SIGINT, SIGQUIT] at h2 <;>
            omega
        · by_cases hv : st.verbose = true <;>
            simp [signal_handler, hself, htrig, halrm, handle_alarm, hprog, hv,
                  SIGALRM, SIGTERM, SIGINT, SIGQUIT] at h
      · simp [signal_handler, hself, htrig, halrm] at h

theorem signal_handler_self_term (sender : Nat) (st : TRState)
    (h : sender = st.selfPid) :
    signal_handler SIGTERM sender st =
      (if st.verbose then { st with log := st.log ++ [.ignoringSelfTerm] } else st,
       none) := by
  simp [signal_handler, h]

theorem shutdownCoordInv_of_fields (st st' : TRState)
    (hb : st'.broadcasts = st.broadcasts) (hc : st'.alarmCalls = st.alarmCalls)
    (hp : st'.shutdown_in_progress = st.shutdown_in_progress)
    (h : shutdownCoordInv st) : shutdownCoordInv st' := by
  unfold shutdownCoordInv
  rw [hb, hc, hp]
  exact h

theorem shutdownCoordInv_start_shutdown (st : TRState)
    (h : shutdownCoordInv st) : shutdownCoordInv (start_shutdown st) := by
  by_cases hp : st.shutdown_in_progress = true
  · obtain ⟨h1, h2, h3, h4, -, -, -⟩ := start_shutdown_core_eq_of_in_progress st hp
    exact shutdownCoordInv_of_fields st _ h2 h4 h1 h
  · rw [Bool.not_eq_true] at hp
    obtain ⟨h1, h2, h3, h4, -, -, -⟩ := start_shutdown_fresh st hp
    obtain ⟨hb, ha⟩ := h.1 hp
    unfold shutdownCoordInv
    rw [h1, h2, h4, hb, ha]
    refine ⟨by simp, ?_, by simp⟩
    split <;> simp

theorem shutdownCoordInv_handle_alarm (st : TRState)
    (h : shutdownCoordInv st) : shutdownCoordInv (handle_alarm st).1 := by
  by_cases hp : st.shutdown_in_progress = true
  · rw [handle_alarm_of_in_progress st hp]
    exact shutdownCoordInv_of_fields st _ rfl rfl rfl h
  · rw [Bool.not_eq_true] at hp
    rw [handle_alarm_of_idle st hp]
    exact h

theorem shutdownCoordInv_signal_handler (sig sender : Nat) (st : TRState)
    (h : shutdownCoordInv st) :
    shutdownCoordInv (signal_handler sig sender st).1 := by
  by_cases hself : sig = SIGTERM ∧ sender = st.selfPid
  · by_cases hv : st.verbose = true <;> simp [signal_handler, hself, hv]
    · exact shutdownCoordInv_of_fields st _ rfl rfl rfl h
    · exact h
  · by_cases htrig : sig = SIGTERM ∨ sig = SIGINT ∨ sig = SIGQUIT
    · by_cases hv : st.verbose = true <;> simp [signal_handler, hself, htrig, hv]
      · exact shutdownCoordInv_start_shutdown _
          (shutdownCoordInv_of_fields st _ rfl rfl rfl h)
      · exact shutdownCoordInv_start_shutdown _ h
    · by_cases halrm : sig = SIGALRM
      · by_cases hv : st.verbose = true <;>
          simp [signal_handler, hself, htrig, halrm, hv]
        · exact shutdownCoordInv_handle_alarm _
            (shutdownCoordInv_of_fields st _ rfl rfl rfl h)
        · exact shutdownCoordInv_handle_alarm _ h
      · by_cases hv : st.verbose = true <;>
          simp [signal_handler, hself, htrig, halrm, hv]
        · exact shutdownCoordInv_of_fields st _ rfl rfl rfl h
        · exact h

theorem shutdownCoordInv_LOG_process_state (pid status : Nat) (st : TRState)
    (h : shutdownCoordInv st) :
    shutdownCoordInv (LOG_process_state pid status st) := by
  unfold LOG_process_state
  split
  · exact shutdownCoordInv_of_fields st _ rfl rfl rfl h
  · split
    · exact shutdownCoordInv_of_fields st _ rfl rfl rfl h
    · exact h

theorem shutdownCoordInv_tr_init (cmd self pgrp : Nat) (v : Bool) :
    shutdownCoordInv (tr_init cmd self pgrp v).sh := by
  refine ⟨fun _ => ⟨rfl, rfl⟩, by simp [tr_init], by simp [tr_init]⟩

theorem tr_step_inl_inv (st : TRLoop) (ev : TREvent) (st1 : TRLoop)
    (h : tr_step st ev = .inl st1) (hinv : shutdownCoordInv st.sh) :
    shutdownCoordInv st1.sh := by
  cases ev with
  | signal sig sender =>
      have hsh := shutdownCoordInv_signal_handler sig sender st.sh hinv
      simp only [tr_step] at h
      cases hs : signal_handler sig sender st.sh with
      | mk sh1 oc =>
          rw [hs] at h hsh
          cases oc with
          | none => injection h with h2; rw [← h2]; exact hsh
          | some c => cases h
  | wait w =>
      cases w with
      | reaped pid s =>
          have hL := shutdownCoordInv_LOG_process_state pid s st.sh hinv
          simp only [tr_step] at h
          split at h
          · injection h with h2
            rw [← h2]
            apply shutdownCoordInv_start_shutdown
            split
            · exact shutdownCoordInv_of_fields _ _ rfl rfl rfl hL
            · exact hL
          · injection h with h2
            rw [← h2]
            exact hL
      | echild => simp [tr_step] at h
      | otherError e =>
          simp only [tr_step] at h
          injection h with h2
          rw [← h2]
          exact hinv

theorem tr_run_inl_inv (evs : List TREvent) : ∀ st st1 : TRLoop,
    tr_run st evs = .inl st1 → shutdownCoordInv st.sh →
    shutdownCoordInv st1.sh := by
  induction evs with
  | nil =>
      intro st st1 h hinv
      simp only [tr_run] at h
      injection h with h2
      rw [← h2]
      exact hinv
  | cons ev rest ih =>
      intro st st1 h hinv
      simp only [tr_run] at h
      cases hs : tr_step st ev with
      | inl st2 =>
          rw [hs] at h
          exact ih st2 st1 h (tr_step_inl_inv st ev st2 hs hinv)
      | inr c => rw [hs] at h; cases h

theorem tr_step_inl_command_pid (st : TRLoop) (ev : TREvent) (st1 : TRLoop)
    (h : tr_step st ev = .inl st1) : st1.command_pid = st.command_pid := by
  cases ev with
  | signal sig sender =>
      simp only [tr_step] at h
      cases hs : signal_handler sig sender st.sh with
      | mk sh1 oc =>
          rw [hs] at h
          cases oc with
          | none => injection h with h2; rw [← h2]
          | some c => cases h
  | wait w =>
      cases w with
      | reaped pid s =>
          simp only [tr_step] at h
          split at h <;> (injection h with h2; rw [← h2])
      | echild => simp [tr_step] at h
      | otherError e =>
          simp only [tr_step] at h
          injection h with h2
          rw [← h2]

theorem tr_step_inl_command_status (st : TRLoop) (ev : TREvent) (st1 : TRLoop)
    (h : tr_step st ev = .inl st1) (hno : reapsPid st.command_pid ev = false) :
    st1.command_status = st.command_status := by
  cases ev with
  | signal sig sender =>
      simp only [tr_step] at h
      cases hs : signal_handler sig sender st.sh with
      | mk sh1 oc =>
          rw [hs] at h
          cases oc with
          | none => injection h with h2; rw [← h2]
          | some c => cases h
  | wait w =>
      cases w with
      | reaped pid s =>
          simp only [reapsPid, beq_eq_false_iff_ne, ne_eq] at hno
          simp only [tr_step] at h
          rw [if_neg hno] at h
          injection h with h2
          rw [← h2]
      | echild => simp [tr_step] at h
      | otherError e =>
          simp only [tr_step] at h
          injection h with h2
          rw [← h2]

theorem tr_run_inl_command_fields (evs : List TREvent) : ∀ st st1 : TRLoop,
    tr_run st evs = .inl st1 →
    st1.command_pid = st.command_pid ∧
    ((∀ ev ∈ evs, reapsPid st.command_pid ev = false) →
      st1.command_status = st.command_status) := by
  induction evs with
  | nil =>
      intro st st1 h
      simp only [tr_run] at h
      injection h with h2
      rw [← h2]
      exact ⟨rfl, fun _ => rfl⟩
  | cons ev rest ih =>
      intro st st1 h
      simp only [tr_run] at h
      cases hs : tr_step st ev with
      | inl st2 =>
          rw [hs] at h
          have hpid := tr_step_inl_command_pid st ev st2 hs
          obtain ⟨ih1, ih2⟩ := ih st2 st1 h
          refine ⟨ih1.trans hpid, fun hno => ?_⟩
          have hcs := tr_step_inl_command_status st ev st2 hs (hno ev (by simp))
          have : st1.command_status = st2.command_status := by
            apply ih2
            intro e he
            rw [hpid]
            exact hno e (by simp [he])
          rw [this, hcs]
      | inr c => rw [hs] at h; cases h

theorem tr_step_inr_cases (st : TRLoop) (ev : TREvent) (c : Int)
    (h : tr_step st ev = .inr c) :
    (ev = .wait .echild ∧ c = tinyreaper_rc st.command_status) ∨ c = -1 := by
  cases ev with
  | signal sig sender =>
      right
      simp only [tr_step] at h
      cases hs : signal_handler sig sender st.sh with
      | mk sh1 oc =>
          rw [hs] at h
          cases oc with
          | none => cases h
          | some c2 =>
              injection h with h2
              have hc := (signal_handler_exit_cases sig sender st.sh sh1 c2 hs).2.2
              rw [← h2, hc]
  | wait w =>
      cases w with
      | reaped pid s =>
          simp only [tr_step] at h
          split at h <;> cases h
      | echild =>
          simp only [tr_step] at h
          injection h with h2
          exact .inl ⟨rfl, h2.symm⟩
      | otherError e => simp [tr_step] at h

theorem tr_run_exit_failure (evs : List TREvent) : ∀ (st : TRLoop) (c : Int),
    tr_run st evs = .inr c →
    tinyreaper_rc st.command_status = -1 →
    (∀ ev ∈ evs, reapsPid st.command_pid ev = false) →
    c = -1 := by
  induction evs with
  | nil => intro st c h _ _; simp only [tr_run] at h; cases h
  | cons ev rest ih =>
      intro st c h hrc hno
      simp only [tr_run] at h
      cases hs : tr_step st ev with
      | inl st1 =>
          rw [hs] at h
          have hpid := tr_step_inl_command_pid st ev st1 hs
          have hcs := tr_step_inl_command_status st ev st1 hs (hno ev (by simp))
          apply ih st1 c h
          · rw [hcs]; exact hrc
          · intro e he
            rw [hpid]
            exact hno e (by simp [he])
      | inr c2 =>
          rw [hs] at h
          injection h with h2
          rcases tr_step_inr_cases st ev c2 hs with ⟨-, hc⟩ | hc
          · rw [← h2, hc, hrc]
          · rw [← h2, hc]

theorem tr_run_append (evs1 evs2 : List TREvent) : ∀ st : TRLoop,
    tr_run st (evs1 ++ evs2) =
      match tr_run st evs1 with
      | .inl st1 => tr_run st1 evs2
      | .inr c => .inr c := by
  induction evs1 with
  | nil => intro st; simp [tr_run]
  | cons ev rest ih =>
      intro st
      simp only [List.cons_append, tr_run]
      cases hs : tr_step st ev with
      | inl st1 => exact ih st1
      | inr c => rfl

theorem tr_run_wait_exit_echild (evs : List TREvent) : ∀ (st : TRLoop) (c : Int),
    (∀ ev ∈ evs, isWaitEvent ev = true) →
    tr_run st evs = .inr c →
    TREvent.wait .echild ∈ evs := by
  induction evs with
  | nil => intro st c _ h; simp only [tr_run] at h; cases h
  | cons ev rest ih =>
      intro st c hw h
      simp only [tr_run] at h
      cases hs : tr_step st ev with
      | inl st1 =>
          rw [hs] at h
          exact List.mem_cons_of_mem _
            (ih st1 c (fun e he => hw e (List.mem_cons_of_mem _ he)) h)
      | inr c2 =>
          cases ev with
          | wait w =>
              cases w with
              | reaped pid s =>
                  simp only [tr_step] at hs
                  split at hs <;> cases hs
              | echild => exact List.mem_cons_self _ _
              | otherError e => simp [tr_step] at hs
          | signal sig sender =>
              have := hw _ (List.mem_cons_self _ _)
              simp [isWaitEvent] at this

theorem LOG_process_state_core (pid status : Nat) (st : TRState) :
    (LOG_process_state pid status st).shutdown_in_progress = st.shutdown_in_progress ∧
    (LOG_process_state pid status st).broadcasts = st.broadcasts ∧
    (LOG_process_state pid status st).alarmSeconds = st.alarmSeconds ∧
    (LOG_process_state pid status st).alarmCalls = st.alarmCalls ∧
    (LOG_process_state pid status st).verbose = st.verbose ∧
    (LOG_process_state pid status st).selfPid = st.selfPid ∧
    (LOG_process_state pid status st).pgrp = st.pgrp := by
  unfold LOG_process_state
  split
  · simp
  · split <;> simp

theorem lr_observe_not_cmd (f : LRFlags) (st : LRLoop) (ev : WaitResult)
    (hno : ∀ p s, ev = .reaped p s → p ≠ st.command) :
    (lr_observe f st ev).command = st.command ∧
    (lr_observe f st ev).command_terminated = st.command_terminated ∧
    (lr_observe f st ev).command_status = st.command_status := by
  cases ev with
  | reaped pid s =>
      have hp : pid ≠ st.command := hno pid s rfl
      by_cases h1 : (WIFEXITED s || WIFSIGNALED s) = true
      · by_cases hv1 : (f.verbose && WIFEXITED s) = true <;>
          by_cases hv2 : (f.verbose && WIFSIGNALED s) = true <;>
          simp [lr_observe, h1, hv1, hv2, hp]
      · simp [lr_observe, h1]
  | echild =>
      by_cases hv : f.verbose = true <;> simp [lr_observe, hv]
  | otherError e =>
      by_cases hv : f.verbose = true <;> simp [lr_observe, hv]

theorem lr_policy_next_of_defaults (f : LRFlags) (st : LRLoop)
    (hwa : f.wait_for_all_sub_processes = false) (hwf : f.wait_forever = false)
    (hct : st.command_terminated = false) :
    lr_policy f st = .next st := by
  simp [lr_policy, hwa, hwf, hct]

theorem lr_run_no_cmd_reap (f : LRFlags)
    (hwa : f.wait_for_all_sub_processes = false) (hwf : f.wait_forever = false)
    (evs : List WaitResult) : ∀ st : LRLoop,
    st.command_terminated = false →
    (∀ p s, WaitResult.reaped p s ∈ evs → p ≠ st.command) →
    ∃ st1 : LRLoop, lr_run f st evs = .next st1 ∧
      st1.command_terminated = false ∧ st1.command = st.command := by
  induction evs with
  | nil => intro st hct _; exact ⟨st, rfl, hct, rfl⟩
  | cons ev rest ih =>
      intro st hct hno
      obtain ⟨hcmd, hterm, -⟩ := lr_observe_not_cmd f st ev
        (fun p s he => hno p s (by rw [← he]; exact List.mem_cons_self _ _))
      have hstep : lr_step f st ev = .next (lr_observe f st ev) :=
        lr_policy_next_of_defaults f _ hwa hwf (hterm.trans hct)
      obtain ⟨st1, hrun, h1, h2⟩ := ih (lr_observe f st ev) (hterm.trans hct)
        (fun p s hm => by rw [hcmd]; exact hno p s (List.mem_cons_of_mem _ hm))
      refine ⟨st1, ?_, h1, h2.trans hcmd⟩
      simp only [lr_run, hstep]
      exact hrun

theorem lr_step_command_exit (f : LRFlags) (st : LRLoop) (s : Nat)
    (hwa : f.wait_for_all_sub_processes = false) (hwf : f.wait_forever = false)
    (hex : WIFEXITED s = true) :
    lr_step f st (.reaped st.command s) = .exit (WEXITSTATUS s : Int) := by
  have h0 : s % 128 = 0 := by simpa [WIFEXITED] using hex
  have hsig : WIFSIGNALED s = false := by simp [WIFSIGNALED, h0]
  by_cases hv : f.verbose = true <;>
    simp [lr_step, lr_observe, lr_policy, return_code_from_process_status,
          hex, hsig, hwa, hwf, hv]

theorem lr_run_append (f : LRFlags) (evs1 evs2 : List WaitResult) :
    ∀ st : LRLoop,
    lr_run f st (evs1 ++ evs2) =
      match lr_run f st evs1 with
      | .next st1 => lr_run f st1 evs2
      | o => o := by
  induction evs1 with
  | nil => intro st; rfl
  | cons ev rest ih =>
      intro st
      simp only [List.cons_append, lr_run]
      cases lr_step f st ev with
      | next st1 => exact ih st1
      | exit c => rfl
      | sleepForever st1 => rfl
      | assertFailed st1 => rfl

theorem lr_step_wait_error (f : LRFlags) (st : LRLoop) (e : Nat)
    (hv : f.verbose = true) (hnc : st.no_child_left = false)
    (hct : st.command_terminated = false) :
    lr_step f st (.otherError e) =
      .next { st with log := st.log ++ [.waitError e] } := by
  by_cases hwf : f.wait_forever = true <;>
    by_cases hwa : f.wait_for_all_sub_processes = true <;>
      simp [lr_step, lr_observe, lr_policy, hv, hnc, hct, hwf, hwa]

theorem vlog_core (st : TRState) (l : TRLog) :
    ((if st.verbose then { st with log := st.log ++ [l] } else st) : TRState).shutdown_in_progress = st.shutdown_in_progress ∧
    ((if st.verbose then { st with log := st.log ++ [l] } else st) : TRState).broadcasts = st.broadcasts ∧
    ((if st.verbose then { st with log := st.log ++ [l] } else st) : TRState).alarmSeconds = st.alarmSeconds ∧
    ((if st.verbose then { st with log := st.log ++ [l] } else st) : TRState).alarmCalls = st.alarmCalls ∧
    ((if st.verbose then { st with log := st.log ++ [l] } else st) : TRState).verbose = st.verbose ∧
    ((if st.verbose then { st with log := st.log ++ [l] } else st) : TRState).selfPid = st.selfPid ∧
    ((if st.verbose then { st with log := st.log ++ [l] } else st) : TRState).pgrp = st.pgrp := by
  split <;> simp

/-! ## Claim theorems -/

/-- Claim C9: `send_signal_to_all_children` signals the whole process group
only when the process is confirmed to still be its group leader
(`getpgrp() == getpid()`); when that check fails the broadcast is a no-op and
no signal is sent. -/
theorem broadcast_only_when_leader (sig : Nat) (st : TRState) :
    (st.pgrp = st.selfPid →
      send_signal_to_all_children sig st =
        { st with broadcasts := st.broadcasts ++ [sig] }) ∧
    (st.pgrp ≠ st.selfPid → send_signal_to_all_children sig st = st) := by
  constructor <;> intro h <;> simp [send_signal_to_all_children, h]

/-- Witness for C9 at a leader state and a non-leader state. -/
theorem broadcast_only_when_leader_witness :
    send_signal_to_all_children SIGTERM trLeaderState =
      { trLeaderState with broadcasts := trLeaderState.broadcasts ++ [SIGTERM] } ∧
    send_signal_to_all_children SIGTERM trNonLeaderState = trNonLeaderState :=
  ⟨(broadcast_only_when_leader SIGTERM trLeaderState).1 rfl,
   (broadcast_only_when_leader SIGTERM trNonLeaderState).2 (by decide)⟩

/-- Counterexample to claim C3: a self-sent `SIGINT` (sender pid 7 equals the
process's own pid 7, state idle) is not filtered — the handler does invoke the
begin-shutdown transition (flag set, `SIGTERM` broadcast).  Only a self-sent
`SIGTERM` is filtered by `signal_handler`. -/
theorem self_sigint_not_filtered_cx :
    trLeaderState.selfPid = 7 ∧
    trLeaderState.shutdown_in_progress = false ∧
    (signal_handler SIGINT 7 trLeaderState).1.shutdown_in_progress = true ∧
    (signal_handler SIGINT 7 trLeaderState).1.broadcasts = [SIGTERM] := by
  decide

/-- Claim C3 (amended): a `SIGTERM` whose sender pid equals the supervisor's
own pid is ignored by the Signal Relay without invoking begin-shutdown — and
since the group broadcast always carries `SIGTERM`, the self-signal produced
by the broadcast never starts a new shutdown cycle.  (Self-sent `SIGINT` or
`SIGQUIT` are not filtered.) -/
theorem self_sigterm_filtered (sender : Nat) (st : TRState)
    (h : sender = st.selfPid) :
    (signal_handler SIGTERM sender st).2 = none ∧
    (signal_handler SIGTERM sender st).1.shutdown_in_progress =
      st.shutdown_in_progress ∧
    (signal_handler SIGTERM sender st).1.broadcasts = st.broadcasts ∧
    (signal_handler SIGTERM sender st).1.alarmSeconds = st.alarmSeconds ∧
    (signal_handler SIGTERM sender st).1.alarmCalls = st.alarmCalls := by
  rw [signal_handler_self_term sender st h]
  split <;> simp

/-- Witness for C3 (amended) at sender pid 7 = own pid 7. -/
theorem self_sigterm_filtered_witness :
    (signal_handler SIGTERM 7 trLeaderState).2 = none ∧
    (signal_handler SIGTERM 7 trLeaderState).1.shutdown_in_progress =
      trLeaderState.shutdown_in_progress ∧
    (signal_handler SIGTERM 7 trLeaderState).1.broadcasts =
      trLeaderState.broadcasts ∧
    (signal_handler SIGTERM 7 trLeaderState).1.alarmSeconds =
      trLeaderState.alarmSeconds ∧
    (signal_handler SIGTERM 7 trLeaderState).1.alarmCalls =
      trLeaderState.alarmCalls :=
  self_sigterm_filtered 7 trLeaderState rfl

/-- Claim C4: `start_shutdown` is idempotent — once shutdown is in progress a
further call changes none of the coordinator state (flag, broadcasts, alarm),
and over any run of the reap loop the group broadcast is performed and the
deadline timer armed at most once. -/
theorem start_shutdown_idempotent :
    (∀ st : TRState, st.shutdown_in_progress = true →
      (start_shutdown st).shutdown_in_progress = st.shutdown_in_progress ∧
      (start_shutdown st).broadcasts = st.broadcasts ∧
      (start_shutdown st).alarmSeconds = st.alarmSeconds ∧
      (start_shutdown st).alarmCalls = st.alarmCalls) ∧
    (∀ (cmd self pgrp : Nat) (v : Bool) (evs : List TREvent) (st1 : TRLoop),
      tr_run (tr_init cmd self pgrp v) evs = .inl st1 →
      st1.sh.broadcasts.length ≤ 1 ∧ st1.sh.alarmCalls ≤ 1) := by
  constructor
  · intro st h
    obtain ⟨h1, h2, h3, h4, -, -, -⟩ := start_shutdown_core_eq_of_in_progress st h
    exact ⟨h1, h2, h3, h4⟩
  · intro cmd self pgrp v evs st1 h
    have hinv := tr_run_inl_inv evs _ st1 h (shutdownCoordInv_tr_init cmd self pgrp v)
    exact ⟨hinv.2.1, hinv.2.2⟩

/-- Witness for C4: a second trigger while shutdown is in progress changes
nothing, and after a run with two termination signals the broadcast and the
alarm each happened exactly once. -/
theorem start_shutdown_idempotent_witness :
    ((start_shutdown trShutdownState).shutdown_in_progress =
        trShutdownState.shutdown_in_progress ∧
      (start_shutdown trShutdownState).broadcasts = trShutdownState.broadcasts ∧
      (start_shutdown trShutdownState).alarmSeconds = trShutdownState.alarmSeconds ∧
      (start_shutdown trShutdownState).alarmCalls = trShutdownState.alarmCalls) ∧
    ({ command_pid := 5, command_status := 0,
       sh := { verbose := false, selfPid := 1, pgrp := 1,
               shutdown_in_progress := true, alarmSeconds := some 5,
               alarmCalls := 1, broadcasts := [15],
               log := [TRLog.terminatingChildren] } } : TRLoop).sh.broadcasts.length ≤ 1 ∧
    ({ command_pid := 5, command_status := 0,
       sh := { verbose := false, selfPid := 1, pgrp := 1,
               shutdown_in_progress := true, alarmSeconds := some 5,
               alarmCalls := 1, broadcasts := [15],
               log := [TRLog.terminatingChildren] } } : TRLoop).sh.alarmCalls ≤ 1 := by
  refine ⟨start_shutdown_idempotent.1 trShutdownState rfl, ?_, ?_⟩
  · exact (start_shutdown_idempotent.2 5 1 1 false
      [.signal 15 99, .signal 2 99] _ (by decide)).1
  · exact (start_shutdown_idempotent.2 5 1 1 false
      [.signal 15 99, .signal 2 99] _ (by decide)).2

/-- Claim C5: on the deadline-timer signal with shutdown in progress the
process exits immediately and unconditionally with the failure status
(`exit(-1)`, observed as 255); with shutdown not in progress the timer signal
has no effect; and the only way any signal delivery exits the process is
`SIGALRM` arriving while shutdown is in progress — so the expired state is
reachable only from terminating and only via the timer. -/
theorem alarm_expiry_behavior :
    (∀ st : TRState, st.shutdown_in_progress = true →
      handle_alarm st =
        ({ st with log := st.log ++ [.shutdownTimeout] }, some (-1)) ∧
      processExitStatus (-1) = 255 ∧ (255 : Nat) ≠ 0) ∧
    (∀ st : TRState, st.shutdown_in_progress = false →
      handle_alarm st = (st, none)) ∧
    (∀ (sig sender : Nat) (st st1 : TRState) (c : Int),
      signal_handler sig sender st = (st1, some c) →
      sig = SIGALRM ∧ st.shutdown_in_progress = true ∧ c = -1) :=
  ⟨fun st h => ⟨handle_alarm_of_in_progress st h, by decide, by decide⟩,
   fun st h => handle_alarm_of_idle st h,
   fun sig sender st st1 c h => signal_handler_exit_cases sig sender st st1 c h⟩

/-- Witness for C5 at concrete coordinator states. -/
theorem alarm_expiry_behavior_witness :
    (handle_alarm trShutdownState =
        ({ trShutdownState with
             log := trShutdownState.log ++ [TRLog.shutdownTimeout] }, some (-1)) ∧
      processExitStatus (-1) = 255 ∧ (255 : Nat) ≠ 0) ∧
    handle_alarm trLeaderState = (trLeaderState, none) ∧
    (SIGALRM = SIGALRM ∧ trShutdownState.shutdown_in_progress = true ∧
      (-1 : Int) = -1) :=
  ⟨alarm_expiry_behavior.1 trShutdownState rfl,
   alarm_expiry_behavior.2.1 trLeaderState rfl,
   alarm_expiry_behavior.2.2 SIGALRM 3 trShutdownState
     { verbose := false, selfPid := 7, pgrp := 7, shutdown_in_progress := true,
       alarmSeconds := none, alarmCalls := 0, broadcasts := [],
       log := [TRLog.shutdownTimeout] } (-1) (by decide)⟩

/-- Claim C10: whichever termination-class signal (from an external sender)
triggers shutdown, the signal broadcast to the group is always `SIGTERM`, the
post-state of the coordinator does not depend on which signal triggered it
(flag set, `SIGTERM` appended, alarm armed), and the deadline armed alongside
is the fixed constant 5 seconds. -/
theorem shutdown_broadcast_always_sigterm (sig sender : Nat) (st : TRState)
    (hsig : sig = SIGTERM ∨ sig = SIGINT ∨ sig = SIGQUIT)
    (hsender : sender ≠ st.selfPid)
    (hidle : st.shutdown_in_progress = false)
    (hleader : st.pgrp = st.selfPid) :
    (signal_handler sig sender st).2 = none ∧
    (signal_handler sig sender st).1.shutdown_in_progress = true ∧
    (signal_handler sig sender st).1.broadcasts = st.broadcasts ++ [SIGTERM] ∧
    (signal_handler sig sender st).1.alarmSeconds =
      some shutdown_timeout_seconds ∧
    shutdown_timeout_seconds = 5 := by
  have hself : ¬(sig = SIGTERM ∧ sender = st.selfPid) :=
    fun hc => hsender hc.2
  obtain ⟨V1, V2, V3, V4, V5, V6, V7⟩ := vlog_core st (TRLog.signalNum sig)
  obtain ⟨F1, F2, F3, F4, -, -, -⟩ := start_shutdown_fresh _ (V1.trans hidle)
  have hrw : signal_handler sig sender st =
      (start_shutdown
        (if st.verbose then { st with log := st.log ++ [TRLog.signalNum sig] }
         else st), none) := by
    simp only [signal_handler]
    rw [if_neg hself, if_pos hsig]
  rw [hrw]
  refine ⟨rfl, F1, ?_, F3, rfl⟩
  rw [F2, V7, V6, V2, if_pos hleader]

/-- Witness for C10: an external `SIGINT` broadcasts `SIGTERM` and arms the
5-second deadline. -/
theorem shutdown_broadcast_always_sigterm_witness :
    (signal_handler SIGINT 3 trLeaderState).2 = none ∧
    (signal_handler SIGINT 3 trLeaderState).1.shutdown_in_progress = true ∧
    (signal_handler SIGINT 3 trLeaderState).1.broadcasts =
      trLeaderState.broadcasts ++ [SIGTERM] ∧
    (signal_handler SIGINT 3 trLeaderState).1.alarmSeconds =
      some shutdown_timeout_seconds ∧
    shutdown_timeout_seconds = 5 :=
  shutdown_broadcast_always_sigterm SIGINT 3 trLeaderState
    (Or.inr (Or.inl rfl)) (by decide) rfl rfl

/-- Counterexample to claim C2: in the tinyreaper reap loop no
remaining-descendant policy exists or is configured, yet observing the
command's termination does not transition directly to done — the loop
continues (`Sum.inl`), having broadcast `SIGTERM` to the group and armed the
deadline timer. -/
theorem tr_no_policy_still_broadcasts_cx :
    tr_run trLoop0 [.wait (.reaped 5 0)] =
      .inl { command_pid := 5, command_status := 0,
             sh := { verbose := false, selfPid := 1, pgrp := 1,
                     shutdown_in_progress := true, alarmSeconds := some 5,
                     alarmCalls := 1, broadcasts := [SIGTERM],
                     log := [.childExited 5 0, .terminatingChildren] } } := by
  decide

/-- Claim C2 (amended): when the tinyreaper Reap Loop observes the Supervised
Command's termination it always invokes the Shutdown Coordinator's
terminating transition — the step continues the loop (never exits at that
point) with the shutdown flag set, `SIGTERM` broadcast to the group, and the
deadline timer armed; there is no configurable remaining-descendant policy in
this loop. -/
theorem tr_command_exit_always_starts_shutdown (st : TRLoop) (s : Nat)
    (hidle : st.sh.shutdown_in_progress = false)
    (hleader : st.sh.pgrp = st.sh.selfPid) :
    (tr_step st (.wait (.reaped st.command_pid s))).isLeft = true ∧
    ∀ st1 : TRLoop, tr_step st (.wait (.reaped st.command_pid s)) = .inl st1 →
      st1.sh.shutdown_in_progress = true ∧
      st1.sh.broadcasts = st.sh.broadcasts ++ [SIGTERM] ∧
      st1.sh.alarmSeconds = some shutdown_timeout_seconds ∧
      st1.sh.alarmCalls = st.sh.alarmCalls + 1 := by
  obtain ⟨L1, L2, L3, L4, L5, L6, L7⟩ :=
    LOG_process_state_core st.command_pid s st.sh
  obtain ⟨V1, V2, V3, V4, V5, V6, V7⟩ :=
    vlog_core (LOG_process_state st.command_pid s st.sh) TRLog.commandFinished
  have hC1 := V1.trans L1
  have hC2 := V2.trans L2
  have hC4 := V4.trans L4
  have hC6 := V6.trans L6
  have hC7 := V7.trans L7
  obtain ⟨F1, F2, F3, F4, -, -, -⟩ := start_shutdown_fresh _ (hC1.trans hidle)
  have hstep : tr_step st (.wait (.reaped st.command_pid s)) =
      .inl { st with command_status := s,
                     sh := start_shutdown
                       (if (LOG_process_state st.command_pid s st.sh).verbose
                        then { LOG_process_state st.command_pid s st.sh with
                                 log := (LOG_process_state st.command_pid s st.sh).log
                                          ++ [TRLog.commandFinished] }
                        else LOG_process_state st.command_pid s st.sh) } := by
    simp [tr_step]
  refine ⟨by rw [hstep]; rfl, ?_⟩
  intro st1 h
  rw [hstep] at h
  injection h with h2
  rw [← h2]
  refine ⟨F1, ?_, F3, ?_⟩
  · show (start_shutdown _).broadcasts = _
    rw [F2, V7, V6, V2, L7, L6, L2, if_pos hleader]
  · show (start_shutdown _).alarmCalls = _
    rw [F4, V4, L4]

/-- Witness for C2 (amended) at a concrete idle leader loop state. -/
theorem tr_command_exit_always_starts_shutdown_witness :
    (tr_step trLoop0 (.wait (.reaped trLoop0.command_pid 0))).isLeft = true ∧
    ∀ st1 : TRLoop,
      tr_step trLoop0 (.wait (.reaped trLoop0.command_pid 0)) = .inl st1 →
      st1.sh.shutdown_in_progress = true ∧
      st1.sh.broadcasts = trLoop0.sh.broadcasts ++ [SIGTERM] ∧
      st1.sh.alarmSeconds = some shutdown_timeout_seconds ∧
      st1.sh.alarmCalls = trLoop0.sh.alarmCalls + 1 :=
  tr_command_exit_always_starts_shutdown trLoop0 0 rfl rfl

/-- Counterexample to claim C6: when the loop ends via the no-descendants
condition without the Supervised Command's status ever having been observed,
the process exits with 0 (the recorded status keeps its initial zero, which
decodes as a normal exit with code 0) — not with the distinguished non-zero
failure code. -/
theorem unobserved_command_exits_zero_cx :
    tr_run trLoop0 [.wait .echild] = .inr 0 ∧ processExitStatus 0 = 0 := by
  decide

/-- Claim C6 (amended): in the done state, if the Supervised Command's
terminal status was never observed (no reap of the command's pid occurred
before the loop ended), the process exits with status 0 — the recorded
`command_status` retains its initial zero, indistinguishable from a normal
zero exit. -/
theorem unobserved_command_status_yields_zero (cmd self pgrp : Nat) (v : Bool)
    (pre : List TREvent) (st1 : TRLoop)
    (hrun : tr_run (tr_init cmd self pgrp v) pre = .inl st1)
    (hno : ∀ ev ∈ pre, reapsPid cmd ev = false) :
    tr_run (tr_init cmd self pgrp v) (pre ++ [.wait .echild]) = .inr 0 ∧
    processExitStatus 0 = 0 := by
  refine ⟨?_, by decide⟩
  obtain ⟨hpid, hcs⟩ := tr_run_inl_command_fields pre (tr_init cmd self pgrp v) st1 hrun
  have hcs0 : st1.command_status = 0 := hcs hno
  rw [tr_run_append, hrun]
  show tr_run st1 [.wait .echild] = .inr 0
  simp [tr_run, tr_step, hcs0, tinyreaper_rc, WIFEXITED, WEXITSTATUS, WIFSIGNALED]

/-- Witness for C6 (amended): a run that reaps only a non-command child. -/
theorem unobserved_command_status_yields_zero_witness :
    tr_run (tr_init 5 1 1 false) ([.wait (.reaped 9 0)] ++ [.wait .echild]) =
      .inr 0 ∧
    processExitStatus 0 = 0 :=
  unobserved_command_status_yields_zero 5 1 1 false [.wait (.reaped 9 0)]
    { command_pid := 5, command_status := 0,
      sh := { verbose := false, selfPid := 1, pgrp := 1,
              shutdown_in_progress := false, alarmSeconds := none,
              alarmCalls := 0, broadcasts := [],
              log := [.childExited 9 0] } }
    (by decide) (by decide)

/-- Claim C7: when the Supervised Command is killed by a signal, the
supervisor exits with the distinguished failure status (`-1`, observed 255),
never 0: `return_code_from_process_status` yields `-1` on every signaled
status, and any exit of a tinyreaper run whose trace reaps the command with a
signaled status (and never re-reaps the command pid) has observed status
255. -/
theorem signaled_command_yields_failure :
    (∀ s : Nat, WIFSIGNALED s = true →
      return_code_from_process_status s = -1 ∧
      processExitStatus (-1) = 255 ∧ (255 : Nat) ≠ 0) ∧
    (∀ (cmd self pgrp : Nat) (v : Bool) (pre post : List TREvent) (s : Nat)
        (st1 : TRLoop) (c : Int),
      tr_run (tr_init cmd self pgrp v) pre = .inl st1 →
      WIFSIGNALED s = true →
      (∀ ev ∈ post, reapsPid cmd ev = false) →
      tr_run (tr_init cmd self pgrp v) (pre ++ .wait (.reaped cmd s) :: post) =
        .inr c →
      processExitStatus c = 255) := by
  constructor
  · intro s hsig
    exact ⟨by simp [return_code_from_process_status, hsig], by decide, by decide⟩
  · intro cmd self pgrp v pre post s st1 c hpre hsig hno hfull
    rw [tr_run_append, hpre] at hfull
    have hpid1 : st1.command_pid = cmd := by
      have h := (tr_run_inl_command_fields pre _ st1 hpre).1
      simpa [tr_init] using h
    simp only [tr_run] at hfull
    cases hs : tr_step st1 (.wait (.reaped cmd s)) with
    | inr c2 =>
        simp only [tr_step] at hs
        split at hs <;> cases hs
    | inl st2 =>
        rw [hs] at hfull
        have hs2 : st2.command_status = s ∧ st2.command_pid = cmd := by
          simp only [tr_step] at hs
          rw [if_pos hpid1.symm] at hs
          injection hs with h2
          rw [← h2]
          exact ⟨rfl, hpid1⟩
        have hc : c = -1 := by
          refine tr_run_exit_failure post st2 c hfull ?_ ?_
          · rw [hs2.1]
            simp [tinyreaper_rc, hsig]
          · rw [hs2.2]
            exact hno
        rw [hc]
        decide

/-- Witness for C7: signaled status 9 and a concrete two-event run. -/
theorem signaled_command_yields_failure_witness :
    (return_code_from_process_status 9 = -1 ∧
      processExitStatus (-1) = 255 ∧ (255 : Nat) ≠ 0) ∧
    processExitStatus (-1) = 255 :=
  ⟨signaled_command_yields_failure.1 9 (by decide),
   signaled_command_yields_failure.2 5 1 1 false [] [.wait .echild] 9
     (tr_init 5 1 1 false) (-1) rfl (by decide) (by decide) (by decide)⟩

/-- Counterexample to claim C8: in the tinyreaper reap loop a wait failure
other than `ECHILD` (here errno 4, `EINTR`) is silently swallowed — even with
verbose mode active, the loop retries with the state (including the log)
completely unchanged, emitting no log line. -/
theorem tr_wait_error_silent_cx :
    trLoopV.sh.verbose = true ∧
    tr_run trLoopV [.wait (.otherError 4)] = .inl trLoopV ∧
    trLoopV.sh.log = [] := by
  decide

/-- Claim C8 (amended): a wait-call failure other than the no-descendants
condition makes the reap loop retry — in tinyreaper the retry is silent (the
state, log included, is unchanged even in verbose mode), while in
little-reaper the failure is logged when verbose mode is active; and, absent
signal deliveries, the tinyreaper loop exits only once the no-descendants
condition (`ECHILD`) is observed. -/
theorem wait_error_retry_behavior :
    (∀ (st : TRLoop) (e : Nat), tr_step st (.wait (.otherError e)) = .inl st) ∧
    (∀ (f : LRFlags) (st : LRLoop) (e : Nat),
      f.verbose = true → st.no_child_left = false →
      st.command_terminated = false →
      lr_step f st (.otherError e) =
        .next { st with log := st.log ++ [.waitError e] }) ∧
    (∀ (st : TRLoop) (evs : List TREvent) (c : Int),
      (∀ ev ∈ evs, isWaitEvent ev = true) →
      tr_run st evs = .inr c → TREvent.wait .echild ∈ evs) :=
  ⟨fun _ _ => rfl,
   fun f st e hv hnc hct => lr_step_wait_error f st e hv hnc hct,
   fun st evs c hw h => tr_run_wait_exit_echild evs st c hw h⟩

/-- Witness for C8 (amended) at concrete loop states and traces. -/
theorem wait_error_retry_behavior_witness :
    tr_step trLoop0 (.wait (.otherError 4)) = .inl trLoop0 ∧
    lr_step lrFlagsV lrLoop0 (.otherError 4) =
      .next { lrLoop0 with log := lrLoop0.log ++ [LRLog.waitError 4] } ∧
    TREvent.wait .echild ∈ [TREvent.wait .echild] :=
  ⟨wait_error_retry_behavior.1 trLoop0 4,
   wait_error_retry_behavior.2.1 lrFlagsV lrLoop0 4 rfl rfl rfl,
   wait_error_retry_behavior.2.2 trLoop0 [.wait .echild] 0 (by decide)
     (by decide)⟩

/-- Claim C1: in a run of little-reaper in which none of the
remaining-descendant policies is engaged (`-w`, `-W`, `-r` all off) and the
Supervised Command exits normally with status N, 0 ≤ N < 255 (the
distinguished-failure threshold), the supervisor exits with status N — a
non-zero N is propagated unchanged. -/
theorem lr_propagates_command_exit_status (f : LRFlags) (cmd s N : Nat)
    (pre rest : List WaitResult)
    (hwa : f.wait_for_all_sub_processes = false)
    (hwf : f.wait_forever = false)
    (hdr : f.dont_reap = false)
    (hno : ∀ p s0, WaitResult.reaped p s0 ∈ pre → p ≠ cmd)
    (hex : WIFEXITED s = true) (hN : WEXITSTATUS s = N) (hlt : N < 255) :
    lr_parent f cmd (pre ++ .reaped cmd s :: rest) = .exit (N : Int) ∧
    processExitStatus (N : Int) = N := by
  constructor
  · obtain ⟨st1, hrun, hterm, hcmd⟩ :=
      lr_run_no_cmd_reap f hwa hwf pre (lr_init cmd) rfl
        (fun p s0 hm => hno p s0 hm)
    have hcmd1 : st1.command = cmd := by simpa [lr_init] using hcmd
    unfold lr_parent
    rw [if_neg (by simp [hdr]), lr_run_append, hrun]
    show lr_run f st1 (.reaped cmd s :: rest) = .exit (N : Int)
    have hstep := lr_step_command_exit f st1 s hwa hwf hex
    rw [hcmd1] at hstep
    simp only [lr_run, hstep, hN]
  · simp only [processExitStatus]
    omega

/-- Witness for C1: command pid 5 exits with encoded status 1792
(`WEXITSTATUS = 7`); the supervisor exits with 7. -/
theorem lr_propagates_command_exit_status_witness :
    lr_parent lrFlags0 5 ([] ++ WaitResult.reaped 5 1792 :: []) =
      .exit ((7 : Nat) : Int) ∧
    processExitStatus ((7 : Nat) : Int) = 7 :=
  lr_propagates_command_exit_status lrFlags0 5 1792 7 [] [] rfl rfl rfl
    (fun p s0 hm => absurd hm (List.not_mem_nil _)) (by decide) (by decide)
    (by decide)
